import Mathlib

/-!
Shallow embedding of the `atupdatesbot` repository.

Embedded components:
* `keywords.py` — keyword catalog (`KEYWORDS`), category priorities
  (`get_category_priority`), categorizer (`categorize_tweet`), query builders
  (`get_search_queries`, `build_optimized_query`, `get_advanced_filters`).
* `twitter_client.py` — `search_tweets` and `search_multiple_queries`
  (deduplication by tweet id, recency sort); the external Twitter API is a
  function parameter (`SearchApi`).
* `main.py` / `telegram_client.py` — the poll cycle `check_and_notify`,
  the checkpoint (`last_tweet_id` file content, modelled as `Option Nat`),
  and the summary message `send_summary`.

Python strings are modelled as Lean `String`; Python's substring test
(`needle in haystack`) is `isSubstr`; `str.lower()` is `lowerStr`
(ASCII case folding, adequate for the texts and keywords involved).  Python's stable
`sorted(..., reverse=True)` with a numeric key is the stable descending
insertion sort `sortDescBy`.  Python `dict` insertion order is modelled by
association lists in insertion order.
-/

/-- `leadsWith n h` is true when the char list `n` is an initial segment of
`h` (helper for the substring test). -/
def leadsWith : List Char → List Char → Bool
  | [], _ => true
  | _ :: _, [] => false
  | a :: as, b :: bs => a == b && leadsWith as bs

/-- `occursIn n h` is true when `n` occurs contiguously inside `h`. -/
def occursIn (needle : List Char) : List Char → Bool
  | [] => needle.isEmpty
  | b :: t => leadsWith needle (b :: t) || occursIn needle t

/-- Python's `needle in haystack` on strings (contiguous substring test). -/
def isSubstr (needle haystack : String) : Bool :=
  occursIn needle.data haystack.data

/-- Python's `str.lower()` (ASCII case folding, which covers the catalog's
keywords), written on the character list so the kernel can evaluate it. -/
def lowerStr (s : String) : String :=
  String.mk (s.data.map Char.toLower)

/-- The keyword catalog of `keywords.py` (`KEYWORDS`): category name to
ordered keyword list, in Python dict insertion order. -/
def KEYWORDS : List (String × List String) :=
  [ ("blockchain_launches",
      [ "new blockchain", "blockchain launch", "launching blockchain",
        "new L1", "new L2", "layer 1 launch", "layer 2 launch",
        "mainnet launch", "testnet live", "mainnet live", "chain goes live",
        "network launch", "introducing new chain", "announcing blockchain",
        "built on new chain" ]),
    ("grants_programs",
      [ "dev grants", "developer grants", "grants program",
        "grant applications open", "accepting grant applications",
        "apply for grant", "grant opportunity", "grant funding available",
        "ecosystem grants", "research grants", "open source grants",
        "web3 grants", "blockchain grants", "DeFi grants", "dApp grants",
        "grants round", "new grants program", "grants initiative",
        "developer funding", "building on? apply", "get funded",
        "funding for developers" ]),
    ("funding_rounds",
      [ "raised funding", "raises $", "raised $", "seed round", "pre-seed",
        "series A", "series B", "funding round", "funding announcement",
        "announced funding", "closed funding", "secured funding",
        "completed raise", "million raise", "million funding", "valuation",
        "led by", "participated by", "invested in", "backed by" ]),
    ("investment_opportunities",
      [ "seeking investment", "looking for investors", "raising capital",
        "fundraising", "investor deck", "pitching to investors",
        "investor call", "demo day", "pitch deck", "YC application",
        "accepted into accelerator", "incubator program", "VC interest",
        "token sale", "private sale", "equity round", "looking for angels" ]),
    ("hackathons_buildathons",
      [ "hackathon announcement", "hackathon registration",
        "hackathon registration open", "new hackathon", "global hackathon",
        "virtual hackathon", "online hackathon", "hackathon winner",
        "hackathon prize", "buildathon", "build-a-thon", "online buildathon",
        "bounty program", "bug bounty", "developer bounty",
        "coding competition", "dev competition", "build and win" ]),
    ("ecosystem_growth",
      [ "building on", "deployed on", "launching on", "new protocol",
        "new DeFi", "new dApp", "integration with", "partners with",
        "partnership announcement", "developer community", "ecosystem fund",
        "ecosystem growth", "TVL milestone", "user milestone" ]),
    ("founder_signals",
      [ "new founder", "founded by", "co-founder", "building in public",
        "launched my startup", "quit my job to build", "founder raised",
        "we raised", "excited to announce we raised", "closed our round",
        "hiring founding", "looking for co-founder", "join our team" ]) ]

/-- Keyword list of a catalog category (Python `KEYWORDS[category]` /
`category in KEYWORDS`). -/
def lookupKeywords (category : String) : Option (List String) :=
  (KEYWORDS.find? (fun p => p.1 == category)).map (fun p => p.2)

/-- `get_category_priority` of `keywords.py`: priority map with default 3. -/
def get_category_priority (category : String) : Nat :=
  if category == "grants_programs" then 10
  else if category == "funding_rounds" then 9
  else if category == "blockchain_launches" then 8
  else if category == "investment_opportunities" then 7
  else if category == "founder_signals" then 6
  else if category == "ecosystem_growth" then 5
  else if category == "hackathons_buildathons" then 4
  else 3

/-- Stable descending insertion by a `Nat` key: `x` is placed before the
first element whose key is `≤ key x` (so earlier elements win ties). -/
def insertDescBy {α : Type} (key : α → Nat) (x : α) : List α → List α
  | [] => [x]
  | y :: ys => if key x < key y then y :: insertDescBy key x ys else x :: y :: ys

/-- Stable descending sort by a `Nat` key; models Python's stable
`sorted(..., key=..., reverse=True)` / `list.sort(key=..., reverse=True)`. -/
def sortDescBy {α : Type} (key : α → Nat) : List α → List α
  | [] => []
  | x :: xs => insertDescBy key x (sortDescBy key xs)

/-- Number of keywords of `kws` whose lower-cased form occurs in the
(already lower-cased) tweet text — the `matches` counter of
`categorize_tweet`. -/
def count_matches (tweet_lower : String) (kws : List String) : Nat :=
  (kws.filter (fun kw => isSubstr (lowerStr kw) tweet_lower)).length

/-- The `category_scores` dict built inside `categorize_tweet`: every
category with at least one keyword match, paired with
`matches * get_category_priority category`, in catalog order. -/
def category_scores (tweet_text : String) : List (String × Nat) :=
  KEYWORDS.filterMap (fun p =>
    if 0 < count_matches (lowerStr tweet_text) p.2 then
      some (p.1, count_matches (lowerStr tweet_text) p.2 * get_category_priority p.1)
    else none)

/-- `categorize_tweet` of `keywords.py`: matching categories sorted
descending by score (stable, so catalog order breaks ties). -/
def categorize_tweet (tweet_text : String) : List String :=
  (sortDescBy (fun p => p.2) (category_scores tweet_text)).map Prod.fst

/-- Python `sep.join(parts)`. -/
def joinSep (sep : String) : List String → String
  | [] => ""
  | [x] => x
  | x :: y :: xs => x ++ sep ++ joinSep sep (y :: xs)

/-- A search query record: Python dict with keys `category`, `query` and an
optional `priority` (the combined queries of `get_search_queries` carry no
`priority` key, hence `Option`). -/
structure SearchQuery where
  category : String
  query : String
  priority : Option Nat
deriving Repr, DecidableEq

/-- The four hand-written `priority_queries` of
`get_search_queries(combine_categories=True)`. -/
def combined_queries : List SearchQuery :=
  [ { category := "grants_and_funding",
      query := "(\"grants program\" OR \"developer grants\" OR \"grant applications\" OR \"ecosystem grants\") -job -hiring",
      priority := none },
    { category := "blockchain_launches",
      query := "(\"mainnet launch\" OR \"new L1\" OR \"new L2\" OR \"chain launch\" OR \"network launch\") -testnet",
      priority := none },
    { category := "fundraising",
      query := "(\"raised $\" OR \"seed round\" OR \"series A\" OR \"closed funding\" OR \"secured funding\") -job",
      priority := none },
    { category := "investment_seeking",
      query := "(\"seeking investment\" OR \"looking for investors\" OR \"raising capital\" OR \"investor deck\")",
      priority := none } ]

/-- The per-category branch of `get_search_queries` (before sorting): one
query per catalog category, multi-word keywords quoted, OR-joined, plus the
per-category noise filters. -/
def per_category_queries : List SearchQuery :=
  KEYWORDS.map (fun p =>
    let query_parts := p.2.map (fun kw =>
      if kw.contains ' ' then "\"" ++ kw ++ "\"" else kw)
    let query := joinSep " OR " query_parts
    let filters :=
      if p.1 == "grants_programs" || p.1 == "funding_rounds" then " -job -hiring"
      else if p.1 == "blockchain_launches" then " lang:en"
      else ""
    { category := p.1, query := query ++ filters,
      priority := some (get_category_priority p.1) })

/-- `get_search_queries` of `keywords.py`: combined or per-category queries,
sorted by `x.get("priority", 5)` descending (Python's stable sort). -/
def get_search_queries (combine_categories : Bool) : List SearchQuery :=
  sortDescBy (fun q => q.priority.getD 5)
    (if combine_categories then combined_queries else per_category_queries)

/-- The dict returned by `get_advanced_filters` of `keywords.py`. -/
structure AdvancedFilters where
  verified_only : String
  min_engagement : String
  exclude_retweets : String
  recent_only : String
  links_only : String
  exclude_noise : String
deriving Repr, DecidableEq

/-- `get_advanced_filters` of `keywords.py`. -/
def get_advanced_filters : AdvancedFilters :=
  { verified_only := " filter:verified",
    min_engagement := " min_faves:10",
    exclude_retweets := " -filter:retweets",
    recent_only := " filter:recent",
    links_only := " filter:links",
    exclude_noise := " -job -hiring -giveaway -airdrop" }

/-- `build_optimized_query` of `keywords.py`: top-5 keywords of each known
category, quoted, OR-joined and parenthesised per category; with
`use_filters` the code appends `exclude_noise` and then `" filter:links"`. -/
def build_optimized_query (categories : List String) (use_filters : Bool) : String :=
  let query_parts := categories.filterMap (fun category =>
    match lookupKeywords category with
    | some keywords =>
        let top_keywords := keywords.take 5
        let category_query :=
          joinSep " OR " (top_keywords.map (fun kw => "\"" ++ kw ++ "\""))
        some ("(" ++ category_query ++ ")")
    | none => none)
  let base_query := joinSep " OR " query_parts
  if use_filters then
    base_query ++ get_advanced_filters.exclude_noise ++ " filter:links"
  else
    base_query

/-- A raw tweet record as returned by the external Twitter search
collaborator (`response.data` in `twitter_client.py`): id, text and
creation timestamp (ids and timestamps are opaque ordered values, modelled
as `Nat`; author/metrics fields are presentation-only and elided). -/
structure RawTweet where
  id : Nat
  text : String
  created_at : Nat
deriving Repr, DecidableEq

/-- A formatted tweet as built by `TwitterClient.search_tweets`: the raw
fields plus the categories computed from the tweet's own text. -/
structure Tweet where
  id : Nat
  text : String
  created_at : Nat
  categories : List String
deriving Repr, DecidableEq

/-- The external search collaborator
(`tweepy.Client.search_recent_tweets`): query string, requested result
count, optional `since_id` → raw tweets.  A collaborator failure or empty
response is the empty list (the code catches `TweepyException` and returns
`[]`). -/
def SearchApi : Type := String → Nat → Option Nat → List RawTweet

/-- The result count `search_tweets` actually passes to the collaborator:
`min(max_results, 100)`. -/
def requestedMaxResults (max_results : Nat) : Nat :=
  min max_results 100

/-- The per-tweet formatting step of `TwitterClient.search_tweets`:
`categories` is `categorize_tweet(tweet.text)`. -/
def mk_tweet (r : RawTweet) : Tweet :=
  { id := r.id, text := r.text, created_at := r.created_at,
    categories := categorize_tweet r.text }

/-- `TwitterClient.search_tweets`: calls the collaborator with
`min(max_results, 100)` and formats each returned tweet. -/
def search_tweets (api : SearchApi) (query : String) (max_results : Nat)
    (since_id : Option Nat) : List Tweet :=
  (api query (requestedMaxResults max_results) since_id).map mk_tweet

/-- One step of the `all_tweets` dict building in
`TwitterClient.search_multiple_queries`: insert `t` unless a tweet with the
same id is already present (first occurrence wins; dict preserves
insertion order). -/
def dedup_insert (acc : List Tweet) (t : Tweet) : List Tweet :=
  if acc.any (fun u => u.id == t.id) then acc else acc ++ [t]

/-- `TwitterClient.search_multiple_queries`: run every query in order,
deduplicate by tweet id keeping first occurrences, then sort by
`created_at` descending. -/
def search_multiple_queries (api : SearchApi) (queries : List SearchQuery)
    (max_results_per_query : Nat) (since_id : Option Nat) : List Tweet :=
  sortDescBy (fun t => t.created_at)
    (queries.foldl
      (fun acc q =>
        (search_tweets api q.query max_results_per_query since_id).foldl
          dedup_insert acc)
      [])

/-- The concatenation of all per-query result lists, in processing order —
the stream the deduplication map of `search_multiple_queries` consumes. -/
def query_stream (api : SearchApi) (queries : List SearchQuery)
    (max_results_per_query : Nat) (since_id : Option Nat) : List Tweet :=
  (queries.map (fun q => search_tweets api q.query max_results_per_query since_id)).flatten

/-- One increment of `collections.Counter` (`category_counter[category] += 1`):
insertion order of first occurrences is preserved. -/
def counter_bump (acc : List (String × Nat)) (cat : String) : List (String × Nat) :=
  if acc.any (fun p => p.1 == cat) then
    acc.map (fun p => if p.1 == cat then (p.1, p.2 + 1) else p)
  else acc ++ [(cat, 1)]

/-- The per-category tally built in `check_and_notify` (`main.py`): every
category of every tweet increments its counter. -/
def category_counter (tweets : List Tweet) : List (String × Nat) :=
  tweets.foldl (fun acc t => t.categories.foldl counter_bump acc) []

/-- The `category_summary` lines of `TelegramClient.send_summary`. -/
def summary_lines (categories_found : List (String × Nat)) : String :=
  joinSep "\n" (categories_found.map (fun p => "  • " ++ p.1 ++ ": " ++ toString p.2))

/-- The message text built by `TelegramClient.send_summary`
(`telegram_client.py`): a fixed "no new tweets" text for count 0, else the
monitoring summary with count and per-category tally. -/
def send_summary_message (tweet_count : Nat) (categories_found : List (String × Nat)) : String :=
  if tweet_count = 0 then
    "🔍 <b>Monitoring Update</b>\n\nNo new tweets found in this check."
  else
    "📈 <b>Monitoring Summary</b>\n\nFound <b>" ++ toString tweet_count ++
      "</b> new tweet(s)\n\n<b>Categories:</b>\n" ++ summary_lines categories_found ++ "\n"

/-- A Telegram send attempted during one cycle: one per-tweet message
(`send_tweet`, whose HTML formatting is presentation-only and elided) or a
summary message with its text. -/
inductive Notice where
  | item (t : Tweet)
  | summaryMsg (text : String)
deriving Repr, DecidableEq

/-- Python `max(tweet['id'] for tweet in tweets)` for the nonempty lists it
is applied to (the 0 seed is inert on nonempty `Nat` lists). -/
def max_tweet_id (tweets : List Tweet) : Nat :=
  tweets.foldl (fun m t => Nat.max m t.id) 0

/-- The observable outcome of one `check_and_notify` cycle (`main.py`):
the Telegram sends attempted in order, the number of per-tweet sends that
succeeded, and the checkpoint file content after the cycle. -/
structure CycleResult where
  notifications : List Notice
  sent_count : Nat
  checkpoint : Option Nat
deriving Repr, DecidableEq

/-- `check_and_notify` of `main.py`: search all per-category queries since
the checkpoint with 20 results per query; on zero tweets log and return
(nothing is sent, checkpoint untouched); otherwise attempt one message per
tweet (`send_tweets_batch`; `sendOk` models per-message Telegram success,
counted but never blocking), then the summary, then save the maximum
fetched id as the new checkpoint. -/
def check_and_notify (api : SearchApi) (sendOk : Tweet → Bool)
    (last_tweet_id : Option Nat) : CycleResult :=
  let queries := get_search_queries false
  let tweets := search_multiple_queries api queries 20 last_tweet_id
  if tweets.isEmpty then
    { notifications := [], sent_count := 0, checkpoint := last_tweet_id }
  else
    { notifications :=
        tweets.map Notice.item ++
          [Notice.summaryMsg (send_summary_message tweets.length (category_counter tweets))],
      sent_count := (tweets.filter sendOk).length,
      checkpoint := some (max_tweet_id tweets) }

/-- `n` consecutive cycles of the poll loop (`run_continuous`), threading
the persisted checkpoint; `oracle i` is the search collaborator's behaviour
during cycle `i`. -/
def run_cycles (oracle : Nat → SearchApi) (sendOk : Tweet → Bool) :
    Nat → Option Nat → Option Nat
  | 0, cp => cp
  | n + 1, cp =>
      (check_and_notify (oracle n) sendOk (run_cycles oracle sendOk n cp)).checkpoint

/-- Checkpoint comparison for monotonicity: whenever `a` holds a value,
`b` holds a value at least as large. -/
def checkpointLE (a b : Option Nat) : Prop :=
  ∀ x, a = some x → ∃ y, b = some y ∧ x ≤ y

/-- A concrete collaborator returning one fixed tweet for every query
(used to instantiate universally quantified theorems). -/
def api_one : SearchApi :=
  fun _ _ _ => [{ id := 100, text := "zzz", created_at := 7 }]

/-- A concrete collaborator on which every query returns the same two
tweets, so distinct queries overlap on both identifiers. -/
def api_overlap : SearchApi :=
  fun _ _ _ =>
    [{ id := 100, text := "dev grants open", created_at := 3 },
     { id := 101, text := "mainnet launch now", created_at := 9 }]

/-- A concrete collaborator family honouring `since_id` strictly: it only
ever returns an identifier strictly above the supplied bound. -/
def oracle_fresh : Nat → SearchApi :=
  fun _ _ _ s =>
    match s with
    | some c => [{ id := c + 1, text := "t", created_at := 0 }]
    | none => [{ id := 1, text := "t", created_at := 0 }]

/-! ### Lemmas about the stable descending sort -/

theorem insertDescBy_perm {α : Type} (key : α → Nat) (x : α) (l : List α) :
    List.Perm (insertDescBy key x l) (x :: l) := by
  induction l with
  | nil => exact List.Perm.refl _
  | cons y ys ih =>
    by_cases h : key x < key y
    · simp only [insertDescBy, if_pos h]
      exact (ih.cons y).trans (List.Perm.swap x y ys)
    · simp only [insertDescBy, if_neg h]
      exact List.Perm.refl _

theorem sortDescBy_perm {α : Type} (key : α → Nat) (l : List α) :
    List.Perm (sortDescBy key l) l := by
  induction l with
  | nil => exact List.Perm.refl _
  | cons x xs ih =>
    exact (insertDescBy_perm key x (sortDescBy key xs)).trans (ih.cons x)

theorem mem_insertDescBy {α : Type} {key : α → Nat} {x z : α} {l : List α} :
    z ∈ insertDescBy key x l ↔ z = x ∨ z ∈ l := by
  rw [(insertDescBy_perm key x l).mem_iff, List.mem_cons]

theorem pairwise_insertDescBy {α : Type} (key : α → Nat) (x : α) {l : List α}
    (h : List.Pairwise (fun a b => key b ≤ key a) l) :
    List.Pairwise (fun a b => key b ≤ key a) (insertDescBy key x l) := by
  induction l with
  | nil => simp [insertDescBy]
  | cons y ys ih =>
    rcases List.pairwise_cons.mp h with ⟨hy, hys⟩
    by_cases hxy : key x < key y
    · simp only [insertDescBy, if_pos hxy]
      refine List.pairwise_cons.mpr ⟨?_, ih hys⟩
      intro z hz
      rcases mem_insertDescBy.mp hz with rfl | hz
      · exact Nat.le_of_lt hxy
      · exact hy z hz
    · simp only [insertDescBy, if_neg hxy]
      have hyx : key y ≤ key x := Nat.le_of_not_lt hxy
      refine List.pairwise_cons.mpr ⟨?_, h⟩
      intro z hz
      rcases List.mem_cons.mp hz with rfl | hz
      · exact hyx
      · exact Nat.le_trans (hy z hz) hyx

theorem sortDescBy_sorted {α : Type} (key : α → Nat) (l : List α) :
    List.Pairwise (fun a b => key b ≤ key a) (sortDescBy key l) := by
  induction l with
  | nil => simp [sortDescBy]
  | cons x xs ih => exact pairwise_insertDescBy key x ih

theorem filter_insertDescBy {α : Type} (key : α → Nat) (k : Nat) (x : α) (l : List α) :
    (insertDescBy key x l).filter (fun z => key z == k) =
      if key x == k then x :: l.filter (fun z => key z == k)
      else l.filter (fun z => key z == k) := by
  induction l with
  | nil =>
    by_cases hx : (key x == k) = true
    · simp [insertDescBy, List.filter_cons, hx]
    · simp [insertDescBy, List.filter_cons, hx]
  | cons y ys ih =>
    by_cases hxy : key x < key y
    · rw [show insertDescBy key x (y :: ys) = y :: insertDescBy key x ys from if_pos hxy]
      by_cases hy : (key y == k) = true
      · have hy' : key y = k := by simpa using hy
        have hx : (key x == k) = false := by
          simp only [beq_eq_false_iff_ne, ne_eq]
          omega
        simp [List.filter_cons, hy, hx, ih]
      · simp [List.filter_cons, hy, ih]
    · rw [show insertDescBy key x (y :: ys) = x :: y :: ys from if_neg hxy]
      by_cases hx : (key x == k) = true
      · simp [List.filter_cons, hx]
      · simp [List.filter_cons, hx]

/-- Stability of `sortDescBy`: for every key value, the elements carrying
that key appear in the sorted output exactly in their original order. -/
theorem sortDescBy_filter_key {α : Type} (key : α → Nat) (k : Nat) (l : List α) :
    (sortDescBy key l).filter (fun z => key z == k) = l.filter (fun z => key z == k) := by
  induction l with
  | nil => rfl
  | cons x xs ih =>
    by_cases hx : (key x == k) = true
    · simp [sortDescBy, filter_insertDescBy, ih, List.filter_cons, hx]
    · simp [sortDescBy, filter_insertDescBy, ih, List.filter_cons, hx]

/-! ### Lemmas about the deduplication fold -/

theorem mem_ids_dedup_insert (acc : List Tweet) (t : Tweet) (i : Nat) :
    i ∈ (dedup_insert acc t).map (fun u => u.id) ↔
      i ∈ acc.map (fun u => u.id) ∨ i = t.id := by
  unfold dedup_insert
  by_cases hc : (acc.any (fun u => u.id == t.id)) = true
  · rw [if_pos hc]
    simp only [List.any_eq_true, beq_iff_eq] at hc
    obtain ⟨u, hu, hut⟩ := hc
    constructor
    · exact Or.inl
    · rintro (h | rfl)
      · exact h
      · exact List.mem_map.mpr ⟨u, hu, hut⟩
  · rw [if_neg hc]
    simp [List.mem_append]

theorem dedup_fold_nodup : ∀ (ts acc : List Tweet),
    (acc.map (fun t => t.id)).Nodup →
      ((ts.foldl dedup_insert acc).map (fun t => t.id)).Nodup := by
  intro ts
  induction ts with
  | nil => intro acc h; exact h
  | cons t' ts ih =>
    intro acc h
    simp only [List.foldl_cons]
    apply ih
    unfold dedup_insert
    by_cases hc : (acc.any (fun u => u.id == t'.id)) = true
    · rw [if_pos hc]; exact h
    · rw [if_neg hc]
      rw [List.map_append]
      simp only [List.map_cons, List.map_nil]
      refine List.Nodup.append h (List.nodup_singleton _) ?_
      intro a ha hb
      simp only [List.mem_singleton] at hb
      subst hb
      simp only [List.any_eq_true, beq_iff_eq] at hc
      obtain ⟨u, hu, hut⟩ := List.mem_map.mp ha
      exact hc ⟨u, hu, hut⟩

theorem dedup_fold_ids : ∀ (ts acc : List Tweet) (i : Nat),
    i ∈ (ts.foldl dedup_insert acc).map (fun t => t.id) ↔
      i ∈ acc.map (fun t => t.id) ∨ i ∈ ts.map (fun t => t.id) := by
  intro ts
  induction ts with
  | nil => simp
  | cons t' ts ih =>
    intro acc i
    simp only [List.foldl_cons, List.map_cons, List.mem_cons]
    rw [ih, mem_ids_dedup_insert]
    tauto

theorem dedup_fold_subset : ∀ (ts acc : List Tweet) (t : Tweet),
    t ∈ ts.foldl dedup_insert acc → t ∈ acc ∨ t ∈ ts := by
  intro ts
  induction ts with
  | nil => intro acc t h; exact Or.inl h
  | cons t' ts ih =>
    intro acc t h
    simp only [List.foldl_cons] at h
    rcases ih _ t h with h1 | h1
    · unfold dedup_insert at h1
      by_cases hc : (acc.any (fun u => u.id == t'.id)) = true
      · rw [if_pos hc] at h1
        exact Or.inl h1
      · rw [if_neg hc] at h1
        rcases List.mem_append.mp h1 with h2 | h2
        · exact Or.inl h2
        · simp only [List.mem_singleton] at h2
          subst h2
          exact Or.inr (List.mem_cons_self _ _)
    · exact Or.inr (List.mem_cons_of_mem _ h1)

/-- Every tweet surviving the deduplication fold that was not already in
the accumulator is the first element of the stream carrying its id. -/
theorem dedup_fold_first : ∀ (ts acc : List Tweet) (t : Tweet),
    t ∈ ts.foldl dedup_insert acc →
      t ∈ acc ∨ (t.id ∉ acc.map (fun u => u.id) ∧
        ts.find? (fun u => u.id == t.id) = some t) := by
  intro ts
  induction ts with
  | nil => intro acc t h; exact Or.inl h
  | cons t' ts ih =>
    intro acc t h
    simp only [List.foldl_cons] at h
    by_cases hc : (acc.any (fun u => u.id == t'.id)) = true
    · rw [show dedup_insert acc t' = acc from if_pos hc] at h
      rcases ih acc t h with h1 | ⟨hn, hf⟩
      · exact Or.inl h1
      · refine Or.inr ⟨hn, ?_⟩
        have hne : (t'.id == t.id) = false := by
          simp only [List.any_eq_true, beq_iff_eq] at hc
          obtain ⟨u, hu, hut⟩ := hc
          by_contra hcon
          simp only [Bool.not_eq_false, beq_iff_eq] at hcon
          exact hn (List.mem_map.mpr ⟨u, hu, by rw [hut, hcon]⟩)
        rw [List.find?_cons, hne]
        exact hf
    · rw [show dedup_insert acc t' = acc ++ [t'] from if_neg hc] at h
      rcases ih _ t h with h1 | ⟨hn, hf⟩
      · rcases List.mem_append.mp h1 with h2 | h2
        · exact Or.inl h2
        · simp only [List.mem_singleton] at h2
          subst h2
          refine Or.inr ⟨?_, ?_⟩
          · intro hmem
            apply hc
            simp only [List.any_eq_true, beq_iff_eq]
            obtain ⟨u, hu, hut⟩ := List.mem_map.mp hmem
            exact ⟨u, hu, hut⟩
          · rw [List.find?_cons, show (t.id == t.id) = true from beq_self_eq_true _]
      · rw [List.map_append] at hn
        simp only [List.map_cons, List.map_nil, List.mem_append,
          List.mem_singleton, not_or] at hn
        obtain ⟨hn1, hn2⟩ := hn
        refine Or.inr ⟨hn1, ?_⟩
        rw [List.find?_cons, show (t'.id == t.id) = false from ?_]
        · exact hf
        · simp only [beq_eq_false_iff_ne, ne_eq]
          intro hcon
          exact hn2 hcon.symm

/-! ### Bridging the nested query fold, membership and max bounds -/

theorem search_fold_eq_stream (api : SearchApi) (mr : Nat) (s : Option Nat) :
    ∀ (qs : List SearchQuery) (acc : List Tweet),
      qs.foldl (fun acc q =>
          (search_tweets api q.query mr s).foldl dedup_insert acc) acc
        = (query_stream api qs mr s).foldl dedup_insert acc := by
  intro qs
  induction qs with
  | nil => intro acc; rfl
  | cons q qs ih =>
    intro acc
    simp only [List.foldl_cons, query_stream, List.map_cons, List.flatten_cons,
      List.foldl_append]
    exact ih _

theorem mem_smq_stream {api : SearchApi} {qs : List SearchQuery} {mr : Nat}
    {s : Option Nat} {t : Tweet}
    (h : t ∈ search_multiple_queries api qs mr s) : t ∈ query_stream api qs mr s := by
  unfold search_multiple_queries at h
  rw [search_fold_eq_stream] at h
  have h2 := (sortDescBy_perm (fun t : Tweet => t.created_at) _).mem_iff.mp h
  rcases dedup_fold_subset _ _ _ h2 with h3 | h3
  · cases h3
  · exact h3

theorem mem_query_stream {api : SearchApi} {qs : List SearchQuery} {mr : Nat}
    {s : Option Nat} {t : Tweet} (h : t ∈ query_stream api qs mr s) :
    ∃ q ∈ qs, ∃ r ∈ api q.query (requestedMaxResults mr) s, t = mk_tweet r := by
  unfold query_stream at h
  rw [List.mem_flatten] at h
  obtain ⟨l, hl, htl⟩ := h
  rw [List.mem_map] at hl
  obtain ⟨q, hq, rfl⟩ := hl
  unfold search_tweets at htl
  rw [List.mem_map] at htl
  obtain ⟨r, hr, rfl⟩ := htl
  exact ⟨q, hq, r, hr, rfl⟩

theorem le_foldl_max : ∀ (ts : List Tweet) (init : Nat),
    init ≤ ts.foldl (fun m t => Nat.max m t.id) init ∧
      ∀ t ∈ ts, t.id ≤ ts.foldl (fun m t => Nat.max m t.id) init := by
  intro ts
  induction ts with
  | nil =>
    intro init
    exact ⟨Nat.le_refl _, by simp⟩
  | cons t' ts ih =>
    intro init
    simp only [List.foldl_cons]
    obtain ⟨h1, h2⟩ := ih (Nat.max init t'.id)
    refine ⟨Nat.le_trans (Nat.le_max_left _ _) h1, ?_⟩
    intro t ht
    rcases List.mem_cons.mp ht with rfl | ht
    · exact Nat.le_trans (Nat.le_max_right _ _) h1
    · exact h2 t ht

theorem le_max_tweet_id {ts : List Tweet} {t : Tweet} (h : t ∈ ts) :
    t.id ≤ max_tweet_id ts :=
  (le_foldl_max ts 0).2 t h

/-! ### Lemmas about the catalog as an association list -/

theorem nodup_keys_eq {l : List (String × List String)}
    (h : (l.map Prod.fst).Nodup) {a : String} {b c : List String}
    (hb : (a, b) ∈ l) (hc : (a, c) ∈ l) : b = c := by
  induction l with
  | nil => cases hb
  | cons p ps ih =>
    simp only [List.map_cons, List.nodup_cons] at h
    rcases List.mem_cons.mp hb with hb1 | hb1 <;>
      rcases List.mem_cons.mp hc with hc1 | hc1
    · rw [← hc1] at hb1
      exact congrArg Prod.snd hb1
    · exfalso
      apply h.1
      have hp : p.1 = a := by rw [← hb1]
      rw [hp]
      exact List.mem_map.mpr ⟨(a, c), hc1, rfl⟩
    · exfalso
      apply h.1
      have hp : p.1 = a := by rw [← hc1]
      rw [hp]
      exact List.mem_map.mpr ⟨(a, b), hb1, rfl⟩
    · exact ih h.2 hb1 hc1

theorem map_fst_filterMap_sublist (f : (String × List String) → Option (String × Nat))
    (hf : ∀ p q, f p = some q → q.1 = p.1) :
    ∀ l : List (String × List String),
      ((l.filterMap f).map Prod.fst).Sublist (l.map Prod.fst) := by
  intro l
  induction l with
  | nil => simp
  | cons p ps ih =>
    simp only [List.filterMap_cons]
    cases hfp : f p with
    | none =>
      simp only [List.map_cons]
      exact ih.cons _
    | some q =>
      simp only [List.map_cons]
      rw [hf p q hfp]
      exact ih.cons₂ _

/-! ### Claim C9 -/

/-- C9: for every call to `search_tweets`, the result count passed to the
external search collaborator is `min(max_results, 100)`, hence capped at
100 regardless of the caller-supplied `max_results`. -/
theorem C9_result_cap (api : SearchApi) (query : String) (max_results : Nat)
    (since_id : Option Nat) :
    requestedMaxResults max_results ≤ 100
    ∧ requestedMaxResults max_results ≤ max_results
    ∧ search_tweets api query max_results since_id =
        (api query (min max_results 100) since_id).map mk_tweet :=
  ⟨Nat.min_le_right _ _, Nat.min_le_left _ _, rfl⟩

/-! ### Claim C4 -/

/-- C4 counterexample: with `use_filters = True` the built query does not
contain the no-reposts clause `" -filter:retweets"` at all, so the output
cannot end with noise-exclusion, no-reposts and links clauses in that
order. -/
theorem C4_counterexample :
    isSubstr get_advanced_filters.exclude_retweets
      (build_optimized_query ["grants_programs"] true) = false := by
  decide

/-- C4 (amended): with `use_filters` true the output is the unfiltered
query followed by exactly the fixed noise-exclusion clause and then the
must-contain-link clause, each carrying a leading space separator; no
no-reposts clause is appended. -/
theorem C4_filters_appended (categories : List String) :
    build_optimized_query categories true =
      build_optimized_query categories false ++
        get_advanced_filters.exclude_noise ++ " filter:links"
    ∧ get_advanced_filters.exclude_noise = " -job -hiring -giveaway -airdrop"
    ∧ leadsWith " ".data get_advanced_filters.exclude_noise.data = true
    ∧ leadsWith " ".data (" filter:links").data = true :=
  ⟨rfl, rfl, by decide, by decide⟩

/-! ### Claim C5 -/

/-- C5 counterexample: the combined-query operation
(`get_search_queries(combine_categories=True)`) returns four records, none
of them with category `"combined"` and none carrying a priority at all
(so no priority equals the catalog maximum). -/
theorem C5_counterexample :
    (get_search_queries true).length = 4
    ∧ (get_search_queries true).map (fun q => q.category) =
        ["grants_and_funding", "blockchain_launches", "fundraising",
          "investment_seeking"]
    ∧ (get_search_queries true).map (fun q => q.priority) =
        [none, none, none, none] := by
  refine ⟨?_, ?_, ?_⟩ <;> decide

/-- C5 (amended): the combined-query operation returns the four fixed
hand-tuned records in their source order (the sort leaves them in place
since each one, lacking a priority key, gets the default 5), each query
string ORing a small fixed set of high-signal sub-queries rather than the
full keyword set. -/
theorem C5_combined_queries : get_search_queries true = combined_queries := by
  decide

/-! ### Claim C3 -/

/-- C3: when every query of a cycle returns zero tweets, `check_and_notify`
returns before sending anything — no per-tweet message and no summary at
all, though `send_summary`'s zero-count branch holds the fixed "no new
tweets" text — and the checkpoint is unchanged. -/
theorem C3_zero_items_cycle (sendOk : Tweet → Bool) (last : Option Nat) :
    check_and_notify (fun _ _ _ => []) sendOk last =
      { notifications := [], sent_count := 0, checkpoint := last }
    ∧ send_summary_message 0 [] =
        "🔍 <b>Monitoring Update</b>\n\nNo new tweets found in this check." :=
  ⟨rfl, rfl⟩

/-! ### Claims C1 and C10 -/

theorem count_matches_pos_iff (tl : String) (kws : List String) :
    0 < count_matches tl kws ↔ ∃ kw ∈ kws, isSubstr (lowerStr kw) tl = true := by
  unfold count_matches
  rw [← List.countP_eq_length_filter, List.countP_pos_iff]

theorem mem_categorize_iff (text cat : String) :
    cat ∈ categorize_tweet text ↔ ∃ s, (cat, s) ∈ category_scores text := by
  unfold categorize_tweet
  rw [List.mem_map]
  constructor
  · rintro ⟨p, hp, rfl⟩
    exact ⟨p.2, (sortDescBy_perm (fun q : String × Nat => q.2) _).mem_iff.mp hp⟩
  · rintro ⟨s, hs⟩
    exact ⟨(cat, s), (sortDescBy_perm _ _).mem_iff.mpr hs, rfl⟩

theorem mem_category_scores_iff (text cat : String) (s : Nat) :
    (cat, s) ∈ category_scores text ↔
      ∃ kws, (cat, kws) ∈ KEYWORDS ∧ 0 < count_matches (lowerStr text) kws ∧
        s = count_matches (lowerStr text) kws * get_category_priority cat := by
  unfold category_scores
  rw [List.mem_filterMap]
  constructor
  · rintro ⟨⟨p1, p2⟩, hp, hfp⟩
    simp only [] at hfp
    split_ifs at hfp with hc
    · rw [Option.some.injEq, Prod.mk.injEq] at hfp
      obtain ⟨h1, h2⟩ := hfp
      subst h1
      exact ⟨p2, hp, hc, h2.symm⟩
  · rintro ⟨kws, hk, hc, rfl⟩
    refine ⟨(cat, kws), hk, ?_⟩
    simp only []
    rw [if_pos hc]

/-- C1 counterexample: for input `"we are live on a new L1 today"` the
categorizer includes `blockchain_launches`, yet no keyword of that
category, as written in the catalog, is a substring of the lower-cased
input (the match only exists because the code lower-cases the keyword
`"new L1"` too). -/
theorem C1_counterexample :
    "blockchain_launches" ∈ categorize_tweet "we are live on a new L1 today"
    ∧ ((lookupKeywords "blockchain_launches").getD []).all
        (fun kw => !(isSubstr kw (lowerStr "we are live on a new L1 today"))) = true := by
  refine ⟨?_, ?_⟩ <;> decide

/-- C1 (amended): for every input text and catalog category `C` with
priority `p` and keyword list `K`, the categorizer's output includes `C`
iff at least one keyword of `K`, lower-cased, is a substring of the
lower-cased input, and `C` then appears in the score table with score
(count of matching lower-cased keywords) × `p`. -/
theorem C1_categorize_iff (text cat : String) (kws : List String)
    (hk : (cat, kws) ∈ KEYWORDS) :
    (cat ∈ categorize_tweet text ↔
      ∃ kw ∈ kws, isSubstr (lowerStr kw) (lowerStr text) = true)
    ∧ ((∃ kw ∈ kws, isSubstr (lowerStr kw) (lowerStr text) = true) →
        (cat, count_matches (lowerStr text) kws * get_category_priority cat) ∈
          category_scores text) := by
  have hnodup : (KEYWORDS.map Prod.fst).Nodup := by decide
  constructor
  · rw [mem_categorize_iff]
    constructor
    · rintro ⟨s, hs⟩
      rw [mem_category_scores_iff] at hs
      obtain ⟨kws', hk', hc', hs'⟩ := hs
      rw [nodup_keys_eq hnodup hk hk']
      exact (count_matches_pos_iff _ _).mp hc'
    · intro hex
      have hc := (count_matches_pos_iff (lowerStr text) kws).mpr hex
      exact ⟨_, (mem_category_scores_iff text cat _).mpr ⟨kws, hk, hc, rfl⟩⟩
  · intro hex
    have hc := (count_matches_pos_iff (lowerStr text) kws).mpr hex
    exact (mem_category_scores_iff text cat _).mpr ⟨kws, hk, hc, rfl⟩

/-- C1 witness: the amended claim instantiated at a concrete text and the
`founder_signals` catalog entry. -/
theorem C1_witness :
    (("founder_signals" ∈ categorize_tweet "we raised a new round" ↔
        ∃ kw ∈ (lookupKeywords "founder_signals").getD [],
          isSubstr (lowerStr kw) (lowerStr "we raised a new round") = true)
      ∧ ((∃ kw ∈ (lookupKeywords "founder_signals").getD [],
            isSubstr (lowerStr kw) (lowerStr "we raised a new round") = true) →
          ("founder_signals",
            count_matches (lowerStr "we raised a new round")
                ((lookupKeywords "founder_signals").getD []) *
              get_category_priority "founder_signals") ∈
            category_scores "we raised a new round")) :=
  C1_categorize_iff "we raised a new round" "founder_signals"
    ((lookupKeywords "founder_signals").getD []) (by decide)

/-- C10: for every input text, the categorizer's output has no duplicate
category names, every emitted name is a catalog key, and every emitted
category has at least one keyword matching the text (the code's matching:
lower-cased keyword occurring in the lower-cased text). -/
theorem C10_categorize_invariants (text : String) :
    (categorize_tweet text).Nodup
    ∧ ∀ cat ∈ categorize_tweet text,
        ∃ kws, (cat, kws) ∈ KEYWORDS ∧
          ∃ kw ∈ kws, isSubstr (lowerStr kw) (lowerStr text) = true := by
  have hnodup : (KEYWORDS.map Prod.fst).Nodup := by decide
  constructor
  · have hsub := map_fst_filterMap_sublist
      (fun p =>
        if 0 < count_matches (lowerStr text) p.2 then
          some (p.1, count_matches (lowerStr text) p.2 * get_category_priority p.1)
        else none)
      (fun p q hq => by
        simp only [] at hq
        split_ifs at hq with hc
        rw [Option.some.injEq] at hq
        rw [← hq])
      KEYWORDS
    have h1 : ((category_scores text).map Prod.fst).Nodup := hsub.nodup hnodup
    unfold categorize_tweet
    exact (((sortDescBy_perm (fun p : String × Nat => p.2)
      (category_scores text)).map Prod.fst).nodup_iff).mpr h1
  · intro cat hcat
    rw [mem_categorize_iff] at hcat
    obtain ⟨s, hs⟩ := hcat
    rw [mem_category_scores_iff] at hs
    obtain ⟨kws, hk, hc, _⟩ := hs
    exact ⟨kws, hk, (count_matches_pos_iff _ _).mp hc⟩

/-- C10 witness: the invariants instantiated at a concrete text. -/
theorem C10_witness :
    (categorize_tweet "dev grants for the new hackathon").Nodup
    ∧ ∀ cat ∈ categorize_tweet "dev grants for the new hackathon",
        ∃ kws, (cat, kws) ∈ KEYWORDS ∧
          ∃ kw ∈ kws,
            isSubstr (lowerStr kw) (lowerStr "dev grants for the new hackathon") = true :=
  C10_categorize_invariants "dev grants for the new hackathon"

/-! ### Claim C2 -/

/-- C2: the aggregator's output contains each tweet id exactly once; each
output tweet is the first element of the concatenated per-query stream
carrying its id (so the earlier-processed query wins ties), with
categories computed from its own text; and the output covers exactly the
ids occurring in the stream. -/
theorem C2_dedup_first_wins (api : SearchApi) (qs : List SearchQuery) (mr : Nat)
    (s : Option Nat) :
    ((search_multiple_queries api qs mr s).map (fun t => t.id)).Nodup
    ∧ (∀ t ∈ search_multiple_queries api qs mr s,
        (query_stream api qs mr s).find? (fun u => u.id == t.id) = some t
        ∧ t.categories = categorize_tweet t.text)
    ∧ (∀ i, i ∈ (search_multiple_queries api qs mr s).map (fun t => t.id) ↔
          i ∈ (query_stream api qs mr s).map (fun t => t.id)) := by
  have hfold : search_multiple_queries api qs mr s =
      sortDescBy (fun t : Tweet => t.created_at)
        ((query_stream api qs mr s).foldl dedup_insert []) := by
    unfold search_multiple_queries
    rw [search_fold_eq_stream]
  have hperm := sortDescBy_perm (fun t : Tweet => t.created_at)
    ((query_stream api qs mr s).foldl dedup_insert [])
  refine ⟨?_, ?_, ?_⟩
  · rw [hfold]
    exact ((hperm.map (fun t : Tweet => t.id)).nodup_iff).mpr
      (dedup_fold_nodup _ [] (by simp))
  · intro t ht
    rw [hfold] at ht
    have ht2 := hperm.mem_iff.mp ht
    constructor
    · rcases dedup_fold_first _ [] t ht2 with h1 | ⟨_, h2⟩
      · cases h1
      · exact h2
    · have ht3 : t ∈ query_stream api qs mr s := by
        rcases dedup_fold_subset _ [] t ht2 with h1 | h1
        · cases h1
        · exact h1
      obtain ⟨q, hq, r, hr, rfl⟩ := mem_query_stream ht3
      rfl
  · intro i
    rw [hfold, (hperm.map (fun t : Tweet => t.id)).mem_iff, dedup_fold_ids]
    simp

/-- C2 witness: the deduplication properties instantiated at a concrete
collaborator on which every query returns the same two tweets. -/
theorem C2_witness :
    ((search_multiple_queries api_overlap (get_search_queries false) 20 none).map
        (fun t => t.id)).Nodup
    ∧ (∀ t ∈ search_multiple_queries api_overlap (get_search_queries false) 20 none,
        (query_stream api_overlap (get_search_queries false) 20 none).find?
            (fun u => u.id == t.id) = some t
        ∧ t.categories = categorize_tweet t.text)
    ∧ (∀ i, i ∈ (search_multiple_queries api_overlap
            (get_search_queries false) 20 none).map (fun t => t.id) ↔
          i ∈ (query_stream api_overlap (get_search_queries false) 20 none).map
            (fun t => t.id)) :=
  C2_dedup_first_wins api_overlap (get_search_queries false) 20 none

/-! ### Claim C6 -/

/-- C6: the aggregator's output is sorted descending by creation
timestamp, and the per-category query list is sorted descending by
priority with the stable tie-break: for every priority value, the queries
carrying it keep their original catalog order. -/
theorem C6_ordering :
    (∀ (api : SearchApi) (qs : List SearchQuery) (mr : Nat) (s : Option Nat),
        List.Pairwise (fun a b => b.created_at ≤ a.created_at)
          (search_multiple_queries api qs mr s))
    ∧ List.Pairwise (fun a b => b.priority.getD 5 ≤ a.priority.getD 5)
        (get_search_queries false)
    ∧ ∀ k, (get_search_queries false).filter (fun q => q.priority.getD 5 == k) =
        per_category_queries.filter (fun q => q.priority.getD 5 == k) := by
  refine ⟨?_, ?_, ?_⟩
  · intro api qs mr s
    exact sortDescBy_sorted (fun t : Tweet => t.created_at) _
  · exact sortDescBy_sorted (fun q : SearchQuery => q.priority.getD 5) _
  · intro k
    exact sortDescBy_filter_key (fun q : SearchQuery => q.priority.getD 5) k
      per_category_queries

/-- C6 witness: the ordering properties instantiated at a concrete
collaborator and at priority value 9. -/
theorem C6_witness :
    List.Pairwise (fun a b => b.created_at ≤ a.created_at)
      (search_multiple_queries api_overlap (get_search_queries false) 20 none)
    ∧ (get_search_queries false).filter (fun q => q.priority.getD 5 == (9 : Nat)) =
        per_category_queries.filter (fun q => q.priority.getD 5 == (9 : Nat)) :=
  ⟨C6_ordering.1 api_overlap (get_search_queries false) 20 none, C6_ordering.2.2 9⟩

/-! ### Claim C7 -/

/-- C7: in a cycle with at least one fetched tweet, the checkpoint is
advanced to the maximum fetched id after the notification step, for every
pattern of per-message send failures (the checkpoint is independent of
which sends succeed), and one message per tweet plus the summary is
attempted. -/
theorem C7_checkpoint_after_send (api : SearchApi) (sendOk sendOk' : Tweet → Bool)
    (last : Option Nat)
    (h : (search_multiple_queries api (get_search_queries false) 20 last).isEmpty
      = false) :
    (check_and_notify api sendOk last).checkpoint =
        some (max_tweet_id
          (search_multiple_queries api (get_search_queries false) 20 last))
    ∧ (check_and_notify api sendOk last).checkpoint =
        (check_and_notify api sendOk' last).checkpoint
    ∧ (check_and_notify api sendOk last).notifications.length =
        (search_multiple_queries api (get_search_queries false) 20 last).length + 1 := by
  refine ⟨?_, ?_, ?_⟩ <;> simp [check_and_notify, h]

/-- C7 witness: the checkpoint advance instantiated at a collaborator
returning one tweet, with all sends failing on one side and all succeeding
on the other. -/
theorem C7_witness :
    (check_and_notify api_one (fun _ => false) none).checkpoint =
        some (max_tweet_id
          (search_multiple_queries api_one (get_search_queries false) 20 none))
    ∧ (check_and_notify api_one (fun _ => false) none).checkpoint =
        (check_and_notify api_one (fun _ => true) none).checkpoint
    ∧ (check_and_notify api_one (fun _ => false) none).notifications.length =
        (search_multiple_queries api_one (get_search_queries false) 20 none).length
          + 1 :=
  C7_checkpoint_after_send api_one (fun _ => false) (fun _ => true) none (by decide)

/-! ### Claim C8 -/

theorem checkpointLE_trans {a b c : Option Nat} (h1 : checkpointLE a b)
    (h2 : checkpointLE b c) : checkpointLE a c := by
  intro x hx
  obtain ⟨y, hy, hxy⟩ := h1 x hx
  obtain ⟨z, hz, hyz⟩ := h2 y hy
  exact ⟨z, hz, Nat.le_trans hxy hyz⟩

theorem cycle_checkpoint_mono (api : SearchApi) (sendOk : Tweet → Bool)
    (cp : Option Nat)
    (h : ∀ q mr c r, r ∈ api q mr (some c) → c < r.id) :
    checkpointLE cp (check_and_notify api sendOk cp).checkpoint := by
  intro x hx
  subst hx
  by_cases he : (search_multiple_queries api (get_search_queries false) 20 (some x)).isEmpty = true
  · refine ⟨x, ?_, Nat.le_refl x⟩
    simp [check_and_notify, he]
  · rw [Bool.not_eq_true] at he
    refine ⟨max_tweet_id
      (search_multiple_queries api (get_search_queries false) 20 (some x)), ?_, ?_⟩
    · simp [check_and_notify, he]
    · have hne : search_multiple_queries api (get_search_queries false) 20 (some x) ≠ [] := by
        intro hnil
        rw [hnil] at he
        simp at he
      obtain ⟨t, ht⟩ := List.exists_mem_of_ne_nil _ hne
      obtain ⟨q, hq, r, hr, rfl⟩ := mem_query_stream (mem_smq_stream ht)
      have hlt : x < r.id := h q.query (requestedMaxResults 20) x r hr
      exact Nat.le_trans (Nat.le_of_lt hlt) (le_max_tweet_id ht)

/-- C8: across any number of cycles, if the search collaborator only ever
returns identifiers strictly greater than the supplied `since_id`, the
persisted checkpoint is non-decreasing (and a zero-item cycle leaves it
unchanged, covered by the empty case of the per-cycle lemma). -/
theorem C8_checkpoint_monotone (oracle : Nat → SearchApi) (sendOk : Tweet → Bool)
    (cp0 : Option Nat)
    (h : ∀ i q mr c r, r ∈ oracle i q mr (some c) → c < r.id) :
    ∀ m n, m ≤ n →
      checkpointLE (run_cycles oracle sendOk m cp0) (run_cycles oracle sendOk n cp0) := by
  intro m n hmn
  induction hmn with
  | refl =>
    intro x hx
    exact ⟨x, hx, Nat.le_refl x⟩
  | step hmk ih =>
    exact checkpointLE_trans ih
      (cycle_checkpoint_mono _ sendOk _ (fun q mr c r hr => h _ q mr c r hr))

/-- C8 witness: checkpoint monotonicity instantiated at a collaborator
that always returns exactly one identifier strictly above the bound. -/
theorem C8_witness :
    checkpointLE (run_cycles oracle_fresh (fun _ => true) 1 (some 5))
      (run_cycles oracle_fresh (fun _ => true) 3 (some 5)) :=
  C8_checkpoint_monotone oracle_fresh (fun _ => true) (some 5)
    (fun i q mr c r hr => by
      simp only [oracle_fresh, List.mem_singleton] at hr
      subst hr
      exact Nat.lt_succ_self c)
    1 3 (by decide)
